import Mathlib

/-!
Shallow embedding of `nlp_kafka_rest_api/kafka_rest.py` (a client library for
the Kafka REST Proxy) and proofs about its producer validation, consumer
session lifecycle, polling loop and base64/JSON decoding logic.

External collaborators (the `requests` transport, the `json` and `base64`
standard-library modules, `uuid4`) are modelled as explicit parameters:
HTTP outcomes are `Except HttpErr _` values supplied by the environment,
fresh keys are a supplied list, and JSON (de)serialization is an abstract
function constrained by hypotheses that state the standard library's
documented contract at the inputs in question.
-/

namespace KafkaRest

/-- A generic Python runtime value, as returned by `response.json()` and
produced/consumed by `json.loads` / `decode_base64`. The constructors mirror
the Python types the code distinguishes (`isinstance(string, dict)`,
`isinstance(string, str)`, bytes from `base64.b64decode`). -/
inductive PyVal where
  | null : PyVal
  | bool (b : Bool) : PyVal
  | int (n : Int) : PyVal
  | str (s : String) : PyVal
  | bytes (bs : List Nat) : PyVal
  | list (xs : List PyVal) : PyVal
  | dict (kvs : List (String × PyVal)) : PyVal

/-- A non-2xx HTTP response surfaced by `Client.request` via
`response.raise_for_status()` (`requests.exceptions.HTTPError`). -/
structure HttpErr where
  status : Nat
deriving DecidableEq

/-- An HTTP request issued through `Client.request`: method, url path (the
part appended to `kafka_rest_api_url`) and body. Only the fields the claims
inspect are kept; the body is a `PyVal` standing for the JSON document that
the code serializes with `json.dumps`. -/
structure Request where
  method : String
  url : String
  body : PyVal

/-! ## Producer (`Producer.__manage_keys`, `Producer.produce`,
`Producer._check_data_size`) -/

/-- Errors `Producer.produce` can raise before or during the HTTP call. -/
inductive ProduceErr where
  /-- Python `ValueError("List of keys must have the same size as list of messages.")`
  from `__manage_keys`. -/
  | valueError : ProduceErr
  /-- Python `RuntimeError(...)` from `_check_data_size`. -/
  | sizeError : ProduceErr
  /-- A non-2xx response propagated from `self.request`. -/
  | http (e : HttpErr) : ProduceErr
deriving DecidableEq

/-- Default of the `producer_data_max_size` parameter of
`Producer.__init__` (67_108_864 bytes). -/
def producer_data_max_size_default : Nat := 67108864

/-- Mutable state of a `Producer` instance that `produce` touches:
`max_data_bytes`, `key_history`, `key_last_request`; `topic_id` is fixed at
construction. -/
structure ProducerState where
  topic_id : String
  max_data_bytes : Nat
  key_history : List String
  key_last_request : List String
deriving DecidableEq

/-- Model of `Producer.__manage_keys(len_messages, keys)`.
`keys = none` models Python `keys=None`; `not keys` is Python truthiness,
true for both `None` and the empty list, in which case one freshly generated
`str(uuid4())` per message is returned (`freshKeys` models that supply).
Otherwise a length mismatch raises `ValueError` and matching keys are
returned as given. -/
def manage_keys (len_messages : Nat) (keys : Option (List String))
    (freshKeys : List String) : Except ProduceErr (List String) :=
  match keys with
  | none => .ok freshKeys
  | some [] => .ok freshKeys
  | some ks => if ks.length ≠ len_messages then .error .valueError else .ok ks

/-- The `{"records": [{"key": k, "value": v} ...], "key_schema"?,
"value_schema"?}` body built by `Producer.produce` (Python `zip` truncates to
the shorter list, as does `List.zip`). -/
def produceBody (ks : List String) (messages : List PyVal)
    (key_schema value_schema : Option String) : PyVal :=
  .dict
    ([("records", .list ((ks.zip messages).map
        (fun kv => .dict [("key", .str kv.1), ("value", kv.2)])))]
     ++ (match key_schema with
         | some s => [("key_schema", PyVal.str s)]
         | none => [])
     ++ (match value_schema with
         | some s => [("value_schema", PyVal.str s)]
         | none => []))

/-- Model of `Producer.produce(messages, endpoint, keys, key_schema, value_schema)`.
Returns the outcome (`.ok` with the key list it returns, or the exception
raised), the final producer state, and the trace of HTTP requests issued.
`dumpsBytes` models `json.dumps(records).encode("utf-8")`; `transport`
models the outcome of `requests.request` + `raise_for_status`. The order of
effects mirrors the source: key management, body construction,
`_check_data_size`, the POST, then the `key_history`/`key_last_request`
updates. -/
def produce (st : ProducerState) (messages : List PyVal)
    (keys : Option (List String)) (key_schema value_schema : Option String)
    (freshKeys : List String) (dumpsBytes : PyVal → List Nat)
    (transport : Except HttpErr Unit) :
    Except ProduceErr (List String) × ProducerState × List Request :=
  match manage_keys messages.length keys freshKeys with
  | .error e => (.error e, st, [])
  | .ok ks =>
    let records := produceBody ks messages key_schema value_schema
    let record_data := dumpsBytes records
    if st.max_data_bytes < record_data.length then
      (.error .sizeError, st, [])
    else
      let req : Request :=
        { method := "POST", url := "/topics/" ++ st.topic_id, body := records }
      match transport with
      | .error e => (.error (.http e), st, [req])
      | .ok _ =>
        (.ok ks,
         { st with key_history := st.key_history ++ ks, key_last_request := ks },
         [req])

/-! ## Consumer session (`Consumer.create`, `Consumer.delete`) -/

/-- Mutable state of a `Consumer` instance relevant to session management.
All fields other than `created` are set in `__init__` and never written by
`create`/`delete` (`instanceName` models the Python attribute `instance`). -/
structure ConsumerState where
  topic_id : String
  created : Bool
  consumer_group : String
  instanceName : String
  format : String
  accept : String
  request_timeout : Nat
  fetch_min_bytes : Nat
  auto_offset_reset : String
deriving DecidableEq

/-- The consumer-config body POSTed by `Consumer.create`. -/
def createBody (st : ConsumerState) : PyVal :=
  .dict
    [("name", .str st.instanceName),
     ("format", .str st.format),
     ("auto.offset.reset", .str st.auto_offset_reset),
     ("consumer.request.timeout.ms", .int st.request_timeout),
     ("fetch.min.bytes", .int st.fetch_min_bytes)]

/-- Model of `Consumer.create()`: if `self.created` is falsy, POST the config to
`/consumers/{group}` and set `created = True` on success (an HTTP error
propagates before the assignment); otherwise do nothing. Returns the
outcome (the method returns `self`), the state, and the request trace. -/
def create (st : ConsumerState) (transport : Except HttpErr Unit) :
    Except HttpErr ConsumerState × List Request :=
  if st.created then (.ok st, [])
  else
    let req : Request :=
      { method := "POST", url := "/consumers/" ++ st.consumer_group,
        body := createBody st }
    match transport with
    | .error e => (.error e, [req])
    | .ok _ => (.ok { st with created := true }, [req])

/-- Model of `Consumer.delete()`: DELETE the instance, then set `created = False`
(an HTTP error propagates before the assignment). -/
def delete (st : ConsumerState) (transport : Except HttpErr Unit) :
    Except HttpErr ConsumerState × List Request :=
  let req : Request :=
    { method := "DELETE",
      url := "/consumers/" ++ st.consumer_group ++ "/instances/"
        ++ st.instanceName,
      body := .str "" }
  match transport with
  | .error e => (.error e, [req])
  | .ok _ => (.ok { st with created := false }, [req])

/-! ## Polling loop (`Consumer.consume`) -/

/-- A record as handed to `Consumer.consume`'s dict comprehension: a parsed
dict `d` with `d["key"]` (compared against `remaining_keys`, hence a string)
and `d["value"]`. -/
structure PRecord where
  key : String
  value : PyVal

/-- Python dict assignment `data[k] = v`: if `k` is already a key the entry
is overwritten in place (insertion order kept), otherwise `(k, v)` is
appended. `data.items()` order is modelled by the list order. -/
def dictInsert (m : List (String × PRecord)) (k : String) (v : PRecord) :
    List (String × PRecord) :=
  if (m.map Prod.fst).contains k then
    m.map (fun p => if p.1 = k then (p.1, v) else p)
  else m ++ [(k, v)]

/-- The dict comprehension
`{d['key']: d for d in self.consume_earliest() if d['key'] in self.remaining_keys}`
over one poll's records. -/
def buildData (remaining : Finset String) (recs : List PRecord) :
    List (String × PRecord) :=
  recs.foldl (fun m d => if d.key ∈ remaining then dictInsert m d.key d else m) []

/-- One iteration of `Consumer.consume`'s `while self.remaining_keys:` loop:
builds `data`, subtracts `set(data)` (the dict's key set) from
`remaining_keys`, and yields `([d for _, d in data.items()], remaining_keys)`.
Returns (yielded batch, new remaining-keys set). -/
def consumeStep (remaining : Finset String) (recs : List PRecord) :
    List PRecord × Finset String :=
  let data := buildData remaining recs
  (data.map Prod.snd, remaining \ (data.map Prod.fst).toFinset)

/-- State of `self.remaining_keys` after `n` iterations of the `consume` loop, where
`polls i` is what `consume_earliest()` returns on the `i`-th poll and the
initial set is `set(keys)` (modelled as the `Finset` argument). The loop
guard runs iteration `n + 1` exactly when `remainingAfter polls keys n` is
nonempty, so the generator is finite iff some `remainingAfter` is empty. -/
def remainingAfter (polls : Nat → List PRecord) (keys : Finset String) :
    Nat → Finset String
  | 0 => keys
  | n + 1 => (consumeStep (remainingAfter polls keys n) (polls n)).2

/-! ## Tail read (`Consumer.consume_latest`) -/

/-- The environment one iteration of `consume_latest`'s retry loop interacts
with: the outcome of the `offsets` query (its `"end_offset"` field), of the
`seek` POST, and of the `consume_earliest` poll. Each may raise
`requests.exceptions.HTTPError`, which the loop swallows. -/
structure Attempt where
  offsets : Except HttpErr Int
  seek : Except HttpErr Unit
  poll : Except HttpErr (List PRecord)

/-- The `while retry > 0:` loop of `consume_latest`. Arguments: the
per-iteration environment, the accumulator `response_decode`, the remaining
`retry` budget, and the iteration index. Returns `response_decode` and the
number of loop iterations entered. Mirrors the source: query offsets
(HTTP error → swallow, `retry -= 1`, continue); `break` when
`end_offset <= 0`; seek to `end_offset - 1` (error → retry); poll, keeping
the last message of the poll in `response_decode`; `break` once
`response_decode` is not `None`. -/
def consumeLatestGo (env : Nat → Attempt) :
    Option PRecord → Nat → Nat → Option PRecord × Nat
  | acc, 0, _ => (acc, 0)
  | acc, retry + 1, i =>
    match (env i).offsets with
    | .error _ =>
      let r := consumeLatestGo env acc retry (i + 1)
      (r.1, r.2 + 1)
    | .ok latestoffset =>
      if latestoffset ≤ 0 then (acc, 1)
      else
        match (env i).seek with
        | .error _ =>
          let r := consumeLatestGo env acc retry (i + 1)
          (r.1, r.2 + 1)
        | .ok _ =>
          match (env i).poll with
          | .error _ =>
            let r := consumeLatestGo env acc retry (i + 1)
            (r.1, r.2 + 1)
          | .ok msgs =>
            match (match msgs.getLast? with
                   | some m => some m
                   | none => acc) with
            | some m => (some m, 1)
            | none =>
              let r := consumeLatestGo env none retry (i + 1)
              (r.1, r.2 + 1)

/-- Exceptions `consume_latest` can propagate from its setup phase. -/
inductive PyErr where
  /-- a non-2xx response from `partitions` or `assign` (outside the `try`) -/
  | http (e : HttpErr)
  /-- Python `IndexError`: `partitions[0]` on an empty partition list -/
  | indexError
deriving DecidableEq

/-- Environment of one `consume_latest` call: the partition-id list returned
by `partitions(topic_id)`, the outcome of the `assign` POST, and the
per-iteration retry-loop environment. -/
structure LatestEnv where
  partitions : Except HttpErr (List Int)
  assign : Except HttpErr Unit
  attempt : Nat → Attempt

/-- Model of `Consumer.consume_latest()`: query partitions, take
`partitions[0]["partition"]`, `assign` to that single partition, then run the
retry loop with `retry = 10` and `response_decode = None`. Errors in the
setup phase propagate (they are outside the `try`). -/
def consume_latest (env : LatestEnv) : Except PyErr (Option PRecord × Nat) :=
  match env.partitions with
  | .error e => .error (.http e)
  | .ok ps =>
    match ps.head? with
    | none => .error .indexError
    | some _ =>
      match env.assign with
      | .error e => .error (.http e)
      | .ok _ => .ok (consumeLatestGo env.attempt none 10 0)

/-! ## Base64/JSON disambiguation (`Consumer.decode_base64`) -/

/-- Python `json.decoder.JSONDecodeError`, the only exception `json.loads` raises
on a `str` argument. -/
inductive JsonErr where
  | jsonDecodeError : JsonErr
deriving DecidableEq

/-- Exceptions `base64.b64decode` raises on a `str` argument:
`binascii.Error` for invalid base64 input (e.g. a number of data characters
that is 1 more than a multiple of 4), and `ValueError` for non-ASCII input.
Neither is caught by `decode_base64`'s except clauses. -/
inductive B64Err where
  | binasciiError : B64Err
  | nonAsciiValueError : B64Err
deriving DecidableEq

/-- Outcome of `json.loads` applied to `bytes`: `json.loads` first decodes
the bytes as text (raising `UnicodeDecodeError` when they are not valid
UTF-8/16/32) and then parses (raising `JSONDecodeError` on a parse
failure). -/
inductive JsonBytesRes where
  | ok (v : PyVal) : JsonBytesRes
  | jsonDecodeError : JsonBytesRes
  | unicodeDecodeError : JsonBytesRes

/-- An exception `decode_base64` propagates to its caller: the except
clauses catch only `JSONDecodeError` and `UnicodeDecodeError`, so an error
raised by `base64.b64decode` itself escapes. -/
inductive DecodeErr where
  | b64 (e : B64Err) : DecodeErr
deriving DecidableEq

/-- Model of `Consumer.decode_base64(string)`. `jsonLoadsStr`, `b64decode` and
`jsonLoadsBytes` model `json.loads` on `str`, `base64.b64decode` on `str`
and `json.loads` on `bytes`. A dict passes through; a string is tried as
JSON, then as base64-wrapped JSON; a `UnicodeDecodeError` there returns the
original string, a `JSONDecodeError` there returns `base64.b64decode(string)`
(recomputed in the source; the oracle is a function, so it equals `bs`); an
error from `b64decode` itself is uncaught; any other value is returned
unchanged. -/
def decode_base64 (jsonLoadsStr : String → Except JsonErr PyVal)
    (b64decode : String → Except B64Err (List Nat))
    (jsonLoadsBytes : List Nat → JsonBytesRes)
    (v : PyVal) : Except DecodeErr PyVal :=
  match v with
  | .dict kvs => .ok (.dict kvs)
  | .str s =>
    match jsonLoadsStr s with
    | .ok j => .ok j
    | .error _ =>
      match b64decode s with
      | .error e => .error (.b64 e)
      | .ok bs =>
        match jsonLoadsBytes bs with
        | .ok j => .ok j
        | .unicodeDecodeError => .ok (.str s)
        | .jsonDecodeError => .ok (.bytes bs)
  | w => .ok w

/-! ## Concrete instances used by witnesses and counterexamples -/

/-- A concrete producer state with the default maximum payload size. -/
def pst0 : ProducerState :=
  { topic_id := "t", max_data_bytes := producer_data_max_size_default,
    key_history := [], key_last_request := [] }

/-- A concrete producer state whose maximum payload size is zero. -/
def pstTiny : ProducerState :=
  { topic_id := "t", max_data_bytes := 0, key_history := [],
    key_last_request := [] }

/-- A serialization oracle returning a fixed two-byte encoding, for
instances where the body's exact encoding is irrelevant. -/
def dumps0 : PyVal → List Nat := fun _ => [123, 125]

/-- A concrete consumer state (not yet created). -/
def cst0 : ConsumerState :=
  { topic_id := "t", created := false, consumer_group := "g",
    instanceName := "i", format := "binary",
    accept := "application/vnd.kafka.binary.v2+json",
    request_timeout := 11000, fetch_min_bytes := 100000,
    auto_offset_reset := "earliest" }

/-- The same consumer state after a successful `create`. -/
def cst1 : ConsumerState := { cst0 with created := true }

/-- A poll oracle that always returns one record with key `"a"`. -/
def pollsW : Nat → List PRecord := fun _ => [⟨"a", PyVal.null⟩]

/-- A requested key set holding the single key `"a"`. -/
def keysW : Finset String := {"a"}

/-- A poll with two records sharing the pending key `"a"`. -/
def recsW : List PRecord := [⟨"a", PyVal.null⟩, ⟨"a", PyVal.int 1⟩]

/-- A `consume_latest` environment: one partition, successful assign, and
every retry-loop iteration sees `end_offset = 0` on an empty partition. -/
def envW : LatestEnv :=
  { partitions := .ok [0], assign := .ok (),
    attempt := fun _ => { offsets := .ok 0, seek := .ok (), poll := .ok [] } }

/-- Behaviour of `json.loads` on the strings of the `decode_base64`
instances below, none of which is valid JSON (Python raises
`JSONDecodeError: Expecting value` on each). -/
def jlsHello : String → Except JsonErr PyVal := fun _ => .error .jsonDecodeError

/-- Behaviour of `base64.b64decode` at `"hello"`: five base64 data
characters is 1 more than a multiple of 4, so Python raises
`binascii.Error`, which `decode_base64` does not catch. -/
def b64Hello : String → Except B64Err (List Nat) := fun _ =>
  .error .binasciiError

/-- Unreachable branch of the counterexample environment. -/
def jlbHello : List Nat → JsonBytesRes := fun _ => .jsonDecodeError

/-- Behaviour of `base64.b64decode` on: `"////"` (decodes to the non-UTF-8
bytes `ff ff ff`), `"aGVsbG8="` (decodes to the ASCII bytes of `hello`),
and any other string of the fallback witness (raises `binascii.Error`). -/
def ub64 : String → Except B64Err (List Nat) := fun s =>
  if s = "////" then .ok [255, 255, 255]
  else if s = "aGVsbG8=" then .ok [104, 101, 108, 108, 111]
  else .error .binasciiError

/-- Behaviour of `json.loads` on the byte strings above: `ff ff ff` raises
`UnicodeDecodeError`; the text `hello` raises `JSONDecodeError`. -/
def ujlb : List Nat → JsonBytesRes := fun bs =>
  if bs = [255, 255, 255] then .unicodeDecodeError else .jsonDecodeError

/-- Behaviour of `json.loads` on strings for the round-trip witness:
the document produced by `json.dumps` on the dict `a ↦ 1` parses back to
it; the base64 text `"eyJhIjogMX0="` is not valid JSON. -/
def wjls : String → Except JsonErr PyVal := fun s =>
  if s = "\x7b\"a\": 1\x7d" then .ok (.dict [("a", .int 1)])
  else .error .jsonDecodeError

/-- Behaviour of `base64.b64decode` at `"eyJhIjogMX0="`, the encoding of the
UTF-8 bytes of that JSON document. -/
def wb64 : String → Except B64Err (List Nat) := fun s =>
  if s = "eyJhIjogMX0=" then .ok [123, 34, 97, 34, 58, 32, 49, 125]
  else .error .binasciiError

/-- Behaviour of `json.loads` on those bytes: parses back to the dict. -/
def wjlb : List Nat → JsonBytesRes := fun bs =>
  if bs = [123, 34, 97, 34, 58, 32, 49, 125] then .ok (.dict [("a", .int 1)])
  else .jsonDecodeError

/-! ## Lemmas about the consume dict comprehension -/

lemma dictInsert_fst_map (m : List (String × PRecord)) (k0 : String) (v : PRecord) :
    (dictInsert m k0 v).map Prod.fst =
      if k0 ∈ m.map Prod.fst then m.map Prod.fst else m.map Prod.fst ++ [k0] := by
  unfold dictInsert
  by_cases h : k0 ∈ m.map Prod.fst
  · rw [if_pos (by simpa using h), if_pos h, List.map_map]
    exact List.map_congr_left fun p _ => by by_cases hp : p.1 = k0 <;> simp [hp]
  · rw [if_neg (by simpa using h), if_neg h]
    simp

lemma dictInsert_fst_mem (m : List (String × PRecord)) (k0 : String) (v : PRecord)
    (k : String) :
    k ∈ (dictInsert m k0 v).map Prod.fst ↔ k ∈ m.map Prod.fst ∨ k = k0 := by
  rw [dictInsert_fst_map]
  by_cases h : k0 ∈ m.map Prod.fst
  · rw [if_pos h]
    constructor
    · exact Or.inl
    · rintro (h1 | rfl)
      · exact h1
      · exact h
  · rw [if_neg h]
    simp

lemma dictInsert_fst_nodup (m : List (String × PRecord)) (k0 : String) (v : PRecord)
    (h : (m.map Prod.fst).Nodup) : ((dictInsert m k0 v).map Prod.fst).Nodup := by
  rw [dictInsert_fst_map]
  by_cases hk : k0 ∈ m.map Prod.fst
  · rwa [if_pos hk]
  · rw [if_neg hk]
    simp [List.nodup_append, h, hk]

lemma dictInsert_mem (m : List (String × PRecord)) (k0 : String) (v : PRecord)
    (k : String) (r : PRecord) :
    (k, r) ∈ dictInsert m k0 v ↔ ((k, r) ∈ m ∧ k ≠ k0) ∨ (k = k0 ∧ r = v) := by
  unfold dictInsert
  by_cases h : k0 ∈ m.map Prod.fst
  · rw [if_pos (by simpa using h)]
    constructor
    · intro hm
      obtain ⟨p, hp, hf⟩ := List.mem_map.1 hm
      by_cases hpk : p.1 = k0
      · rw [if_pos hpk] at hf
        injection hf with h1 h2
        exact Or.inr ⟨h1.symm.trans hpk, h2.symm⟩
      · rw [if_neg hpk] at hf
        subst hf
        exact Or.inl ⟨hp, hpk⟩
    · rintro (⟨hm, hne⟩ | ⟨rfl, rfl⟩)
      · exact List.mem_map.2 ⟨(k, r), hm, by simp [hne]⟩
      · obtain ⟨p, hp, hpk⟩ := List.mem_map.1 h
        exact List.mem_map.2 ⟨p, hp, by simp [hpk]⟩
  · rw [if_neg (by simpa using h)]
    simp only [List.mem_append, List.mem_singleton]
    constructor
    · rintro (hm | hkv)
      · refine Or.inl ⟨hm, ?_⟩
        rintro rfl
        exact h (List.mem_map.2 ⟨(k, r), hm, rfl⟩)
      · injection hkv with h1 h2
        exact Or.inr ⟨h1, h2⟩
    · rintro (⟨hm, _⟩ | ⟨rfl, rfl⟩)
      · exact Or.inl hm
      · exact Or.inr rfl

lemma buildData_concat (remaining : Finset String) (rs : List PRecord) (d : PRecord) :
    buildData remaining (rs ++ [d]) =
      if d.key ∈ remaining then dictInsert (buildData remaining rs) d.key d
      else buildData remaining rs := by
  simp [buildData, List.foldl_append]

/-- Invariant of the dict comprehension over one poll: dict keys are
pairwise distinct; every entry `(k, r)` has `r["key"] = k`, a still-pending
key, and `r` is the last record in the poll with that key. -/
lemma buildData_spec (remaining : Finset String) (recs : List PRecord) :
    ((buildData remaining recs).map Prod.fst).Nodup ∧
      ∀ p ∈ buildData remaining recs,
        p.2.key = p.1 ∧ p.1 ∈ remaining ∧
          (recs.filter (fun d => d.key = p.1)).getLast? = some p.2 := by
  induction recs using List.reverseRecOn with
  | nil => simp [buildData]
  | append_singleton rs d ih =>
    obtain ⟨ihn, ihm⟩ := ih
    rw [buildData_concat]
    by_cases hd : d.key ∈ remaining
    · rw [if_pos hd]
      refine ⟨dictInsert_fst_nodup _ _ _ ihn, ?_⟩
      rintro ⟨k, r⟩ hp
      rw [dictInsert_mem] at hp
      rcases hp with ⟨hm, hne⟩ | ⟨rfl, rfl⟩
      · obtain ⟨h1, h2, h3⟩ := ihm (k, r) hm
        refine ⟨h1, h2, ?_⟩
        have hdk : ¬(d.key = k) := fun hc => hne hc.symm
        rw [List.filter_append]
        simpa [List.filter_cons, hdk] using h3
      · refine ⟨rfl, hd, ?_⟩
        rw [List.filter_append]
        simp [List.filter_cons]
    · rw [if_neg hd]
      refine ⟨ihn, ?_⟩
      intro p hp
      obtain ⟨h1, h2, h3⟩ := ihm p hp
      refine ⟨h1, h2, ?_⟩
      have hdk : ¬(d.key = p.1) := fun hc => hd (by rw [hc]; exact h2)
      rw [List.filter_append]
      simpa [List.filter_cons, hdk] using h3

lemma buildData_fst_mem (remaining : Finset String) (recs : List PRecord)
    (k : String) :
    k ∈ (buildData remaining recs).map Prod.fst ↔
      k ∈ remaining ∧ ∃ d ∈ recs, d.key = k := by
  induction recs using List.reverseRecOn with
  | nil => simp [buildData]
  | append_singleton rs d ih =>
    rw [buildData_concat]
    by_cases hd : d.key ∈ remaining
    · rw [if_pos hd, dictInsert_fst_mem, ih]
      constructor
      · rintro (⟨h1, dd, hdd, rfl⟩ | rfl)
        · exact ⟨h1, dd, List.mem_append_left _ hdd, rfl⟩
        · exact ⟨hd, d, List.mem_append_right _ (List.mem_singleton_self d), rfl⟩
      · rintro ⟨h1, dd, hdd, rfl⟩
        rcases List.mem_append.1 hdd with h2 | h2
        · exact Or.inl ⟨h1, dd, h2, rfl⟩
        · rw [List.mem_singleton.1 h2]
          exact Or.inr rfl
    · rw [if_neg hd, ih]
      constructor
      · rintro ⟨h1, dd, hdd, rfl⟩
        exact ⟨h1, dd, List.mem_append_left _ hdd, rfl⟩
      · rintro ⟨h1, dd, hdd, rfl⟩
        rcases List.mem_append.1 hdd with h2 | h2
        · exact ⟨h1, dd, h2, rfl⟩
        · rw [List.mem_singleton.1 h2] at h1
          exact absurd h1 hd

lemma consumeStep_snd_mem (remaining : Finset String) (recs : List PRecord)
    (k : String) :
    k ∈ (consumeStep remaining recs).2 ↔
      k ∈ remaining ∧ ∀ d ∈ recs, d.key ≠ k := by
  simp only [consumeStep, Finset.mem_sdiff, List.mem_toFinset, buildData_fst_mem]
  constructor
  · rintro ⟨h1, h2⟩
    exact ⟨h1, fun d hd hk => h2 ⟨h1, d, hd, hk⟩⟩
  · rintro ⟨h1, h2⟩
    exact ⟨h1, fun hc => h2 hc.2.choose hc.2.choose_spec.1 hc.2.choose_spec.2⟩

lemma remainingAfter_mem (polls : Nat → List PRecord) (keys : Finset String)
    (n : Nat) (k : String) :
    k ∈ remainingAfter polls keys n ↔
      k ∈ keys ∧ ∀ i < n, ∀ d ∈ polls i, d.key ≠ k := by
  induction n with
  | zero => simp [remainingAfter]
  | succ n ih =>
    rw [remainingAfter, consumeStep_snd_mem, ih]
    constructor
    · rintro ⟨⟨h1, h2⟩, h3⟩
      refine ⟨h1, fun i hi => ?_⟩
      rcases Nat.lt_succ_iff_lt_or_eq.1 hi with h | rfl
      · exact h2 i h
      · exact h3
    · rintro ⟨h1, h2⟩
      exact ⟨⟨h1, fun i hi => h2 i (Nat.lt_succ_of_lt hi)⟩,
        h2 n (Nat.lt_succ_self n)⟩

/-! ## Lemmas about the consume_latest retry loop -/

lemma consumeLatestGo_le (env : Nat → Attempt) (acc : Option PRecord)
    (fuel i : Nat) : (consumeLatestGo env acc fuel i).2 ≤ fuel := by
  induction fuel generalizing acc i with
  | zero => simp [consumeLatestGo]
  | succ n ih =>
    cases ho : (env i).offsets with
    | error e =>
      simp only [consumeLatestGo, ho]
      exact Nat.succ_le_succ (ih _ _)
    | ok off =>
      by_cases hoff : off ≤ 0
      · simp only [consumeLatestGo, ho, if_pos hoff]
        omega
      · cases hs : (env i).seek with
        | error e =>
          simp only [consumeLatestGo, ho, if_neg hoff, hs]
          exact Nat.succ_le_succ (ih _ _)
        | ok u =>
          cases hp : (env i).poll with
          | error e =>
            simp only [consumeLatestGo, ho, if_neg hoff, hs, hp]
            exact Nat.succ_le_succ (ih _ _)
          | ok msgs =>
            simp only [consumeLatestGo, ho, if_neg hoff, hs, hp]
            cases hm : msgs.getLast? with
            | some m => simp
            | none =>
              cases acc with
              | some m => simp
              | none =>
                simp only []
                exact Nat.succ_le_succ (ih _ _)

lemma consumeLatestGo_none_of_offsets_nonpos (env : Nat → Attempt)
    (h : ∀ i e, (env i).offsets = Except.ok e → e ≤ 0) (fuel i : Nat) :
    (consumeLatestGo env none fuel i).1 = none := by
  induction fuel generalizing i with
  | zero => simp [consumeLatestGo]
  | succ n ih =>
    cases ho : (env i).offsets with
    | error e =>
      simp only [consumeLatestGo, ho]
      exact ih _
    | ok off =>
      simp [consumeLatestGo, ho, h i off ho]

lemma consumeLatestGo_none_of_empty_polls (env : Nat → Attempt)
    (h : ∀ i msgs, (env i).poll = Except.ok msgs → msgs = []) (fuel i : Nat) :
    (consumeLatestGo env none fuel i).1 = none := by
  induction fuel generalizing i with
  | zero => simp [consumeLatestGo]
  | succ n ih =>
    cases ho : (env i).offsets with
    | error e =>
      simp only [consumeLatestGo, ho]
      exact ih _
    | ok off =>
      by_cases hoff : off ≤ 0
      · simp [consumeLatestGo, ho, hoff]
      · cases hs : (env i).seek with
        | error e =>
          simp only [consumeLatestGo, ho, if_neg hoff, hs]
          exact ih _
        | ok u =>
          cases hp : (env i).poll with
          | error e =>
            simp only [consumeLatestGo, ho, if_neg hoff, hs, hp]
            exact ih _
          | ok msgs =>
            have hnil := h i msgs hp
            subst hnil
            simp only [consumeLatestGo, ho, if_neg hoff, hs, hp,
              List.getLast?_nil]
            exact ih _

/-! ## Claim theorems -/

/-- C1: provided the setup phase succeeds (a non-empty partition list and a
successful `assign`), `consume_latest` terminates normally; its retry loop
enters at most 10 iterations; if every offsets query reports
`end_offset <= 0` the result is `None`; and the result is `None` whenever no
poll ever returns a record. -/
theorem consume_latest_retry_bound_and_none (env : LatestEnv) (p : Int)
    (ps : List Int) (hp : env.partitions = Except.ok (p :: ps))
    (ha : env.assign = Except.ok ()) :
    ∃ r n, consume_latest env = Except.ok (r, n) ∧ n ≤ 10 ∧
      ((∀ i e, (env.attempt i).offsets = Except.ok e → e ≤ 0) → r = none) ∧
      ((∀ i msgs, (env.attempt i).poll = Except.ok msgs → msgs = []) →
        r = none) := by
  refine ⟨(consumeLatestGo env.attempt none 10 0).1,
    (consumeLatestGo env.attempt none 10 0).2, ?_,
    consumeLatestGo_le _ _ _ _, ?_, ?_⟩
  · simp [consume_latest, hp, ha]
  · intro h
    exact consumeLatestGo_none_of_offsets_nonpos env.attempt h 10 0
  · intro h
    exact consumeLatestGo_none_of_empty_polls env.attempt h 10 0

/-- Witness for C1 on a concrete empty-partition environment. -/
theorem consume_latest_retry_bound_and_none_witness :
    ∃ r n, consume_latest envW = Except.ok (r, n) ∧ n ≤ 10 ∧
      ((∀ i e, (envW.attempt i).offsets = Except.ok e → e ≤ 0) → r = none) ∧
      ((∀ i msgs, (envW.attempt i).poll = Except.ok msgs → msgs = []) →
        r = none) :=
  consume_latest_retry_bound_and_none envW 0 [] rfl rfl

/-- C2: the `consume` polling loop terminates (some remaining-keys set is
empty, at which point the generator stops) exactly when every requested key
is observed in some poll — duplicate or unrelated keys notwithstanding —
and if some requested key is never observed, the pending set is never empty,
so the sequence is infinite. -/
theorem consume_terminates_iff_all_keys_observed (polls : Nat → List PRecord)
    (keys : Finset String) :
    ((∀ k ∈ keys, ∃ n, ∃ d ∈ polls n, d.key = k) ↔
      ∃ N, remainingAfter polls keys N = ∅) ∧
      ((∃ k ∈ keys, ∀ n, ∀ d ∈ polls n, d.key ≠ k) →
        ∀ N, remainingAfter polls keys N ≠ ∅) := by
  constructor
  · constructor
    · intro h
      have hch : ∀ k : keys, ∃ n, ∃ d ∈ polls n, d.key = (k : String) :=
        fun k => h k k.2
      choose f hf using hch
      refine ⟨keys.attach.sup f + 1, Finset.eq_empty_iff_forall_not_mem.2 ?_⟩
      intro k hk
      rw [remainingAfter_mem] at hk
      obtain ⟨hk1, hk2⟩ := hk
      obtain ⟨d, hd, hkey⟩ := hf ⟨k, hk1⟩
      exact hk2 (f ⟨k, hk1⟩)
        (Nat.lt_succ_of_le (Finset.le_sup (Finset.mem_attach _ _))) d hd hkey
    · rintro ⟨N, hN⟩ k hk
      by_contra hc
      push_neg at hc
      have hmem : k ∈ remainingAfter polls keys N := by
        rw [remainingAfter_mem]
        exact ⟨hk, fun i _ => hc i⟩
      rw [hN] at hmem
      exact absurd hmem (Finset.not_mem_empty k)
  · rintro ⟨k, hk, hnever⟩ N hN
    have hmem : k ∈ remainingAfter polls keys N := by
      rw [remainingAfter_mem]
      exact ⟨hk, fun i _ => hnever i⟩
    rw [hN] at hmem
    exact absurd hmem (Finset.not_mem_empty k)

/-- Witness for C2: with every poll returning key `"a"`, the pending set
`{"a"}` empties at some iteration. -/
theorem consume_terminates_iff_all_keys_observed_witness :
    ∃ N, remainingAfter pollsW keysW N = ∅ :=
  (consume_terminates_iff_all_keys_observed pollsW keysW).1.1 (by
    intro k hk
    simp only [keysW, Finset.mem_singleton] at hk
    exact ⟨0, ⟨"a", PyVal.null⟩, by simp [pollsW], hk.symm⟩)

/-- C3: across one iteration of the `consume` loop the pending-keys set
shrinks monotonically: the new remaining set is a subset of the previous
one; a pending key is removed exactly when the poll contains a record with
that key; and a key not pending before is not pending after (no key is ever
added back). -/
theorem consume_pending_monotone (polls : Nat → List PRecord)
    (keys : Finset String) (n : Nat) :
    remainingAfter polls keys (n + 1) ⊆ remainingAfter polls keys n ∧
      (∀ k ∈ remainingAfter polls keys n,
        (k ∉ remainingAfter polls keys (n + 1) ↔ ∃ d ∈ polls n, d.key = k)) ∧
      ∀ k, k ∉ remainingAfter polls keys n →
        k ∉ remainingAfter polls keys (n + 1) := by
  have hstep : ∀ k, k ∈ remainingAfter polls keys (n + 1) ↔
      k ∈ remainingAfter polls keys n ∧ ∀ d ∈ polls n, d.key ≠ k :=
    fun k => consumeStep_snd_mem _ _ _
  refine ⟨?_, ?_, ?_⟩
  · intro k hk
    exact ((hstep k).1 hk).1
  · intro k hk
    constructor
    · intro h
      by_contra hc
      push_neg at hc
      exact h ((hstep k).2 ⟨hk, hc⟩)
    · rintro ⟨d, hd, he⟩ hmem
      exact ((hstep k).1 hmem).2 d hd he
  · intro k hk hk1
    exact hk ((hstep k).1 hk1).1

/-- Witness for C3 at the first iteration of a concrete loop. -/
theorem consume_pending_monotone_witness :
    "a" ∉ remainingAfter pollsW keysW 1 ↔ ∃ d ∈ pollsW 0, d.key = "a" :=
  (consume_pending_monotone pollsW keysW 0).2.1 "a"
    (by simp [remainingAfter, keysW])

/-- C10: the batch yielded by one iteration of `consume` has
pairwise-distinct record keys, and each record in it is the last record of
the poll carrying its key (the dict comprehension keeps only the last record
per key). -/
theorem consume_batch_unique_last_keys (remaining : Finset String)
    (recs : List PRecord) :
    ((consumeStep remaining recs).1.map PRecord.key).Nodup ∧
      ∀ r ∈ (consumeStep remaining recs).1,
        (recs.filter (fun d => d.key = r.key)).getLast? = some r := by
  obtain ⟨hn, hs⟩ := buildData_spec remaining recs
  have h1 : (consumeStep remaining recs).1
      = (buildData remaining recs).map Prod.snd := by
    simp [consumeStep]
  have hmap : ((buildData remaining recs).map Prod.snd).map PRecord.key
      = (buildData remaining recs).map Prod.fst := by
    rw [List.map_map]
    exact List.map_congr_left fun p hp => (hs p hp).1
  constructor
  · rw [h1, hmap]
    exact hn
  · intro r hr
    rw [h1] at hr
    obtain ⟨p, hp, hrp⟩ := List.mem_map.1 hr
    obtain ⟨hk, _, hlast⟩ := hs p hp
    subst hrp
    rw [hk]
    exact hlast

/-- Witness for C10: of two records with the pending key `"a"` in one poll,
the yielded batch keeps the second. -/
theorem consume_batch_unique_last_keys_witness :
    (recsW.filter (fun d => d.key = (PRecord.mk "a" (PyVal.int 1)).key)).getLast?
      = some ⟨"a", PyVal.int 1⟩ :=
  (consume_batch_unique_last_keys keysW recsW).2 ⟨"a", PyVal.int 1⟩ (by
    rw [show (consumeStep keysW recsW).1 = [⟨"a", PyVal.int 1⟩] from rfl]
    exact List.mem_singleton_self _)

/-- C4 counterexample: on the string `"hello"` — neither valid JSON nor
valid base64 — the base64 stage fails with a decode error
(`binascii.Error`), which the except clauses do not catch, so
`decode_base64` raises instead of returning the raw string unchanged. -/
theorem decode_base64_nonbase64_string_raises :
    decode_base64 jlsHello b64Hello jlbHello (PyVal.str "hello")
        = Except.error (DecodeErr.b64 B64Err.binasciiError) ∧
      decode_base64 jlsHello b64Hello jlbHello (PyVal.str "hello")
        ≠ Except.ok (PyVal.str "hello") :=
  ⟨rfl, fun h => Except.noConfusion (rfl.trans h)⟩

/-- C4 (amended): for a string that is not valid JSON, a failure of
`base64.b64decode` itself propagates as an uncaught exception; the raw input
string is returned unchanged only on a unicode failure (the decoded bytes
are not valid text); and when base64 decoding succeeds but JSON parsing of
the decoded bytes fails, the raw decoded bytes are returned. -/
theorem decode_base64_string_fallback (jls : String → Except JsonErr PyVal)
    (b64 : String → Except B64Err (List Nat)) (jlb : List Nat → JsonBytesRes)
    (s : String) (hj : jls s = Except.error JsonErr.jsonDecodeError) :
    (∀ e, b64 s = Except.error e →
        decode_base64 jls b64 jlb (PyVal.str s)
          = Except.error (DecodeErr.b64 e)) ∧
      (∀ bs, b64 s = Except.ok bs → jlb bs = JsonBytesRes.unicodeDecodeError →
        decode_base64 jls b64 jlb (PyVal.str s) = Except.ok (PyVal.str s)) ∧
      ∀ bs, b64 s = Except.ok bs → jlb bs = JsonBytesRes.jsonDecodeError →
        decode_base64 jls b64 jlb (PyVal.str s)
          = Except.ok (PyVal.bytes bs) := by
  refine ⟨?_, ?_, ?_⟩
  · intro e hb
    simp [decode_base64, hj, hb]
  · intro bs hb hu
    simp [decode_base64, hj, hb, hu]
  · intro bs hb hu
    simp [decode_base64, hj, hb, hu]

/-- Witness for C4's amended theorem, hitting all three branches on the
concrete stdlib behaviours recorded in `ub64`/`ujlb`. -/
theorem decode_base64_string_fallback_witness :
    decode_base64 jlsHello ub64 ujlb (PyVal.str "hello")
        = Except.error (DecodeErr.b64 B64Err.binasciiError) ∧
      decode_base64 jlsHello ub64 ujlb (PyVal.str "////")
        = Except.ok (PyVal.str "////") ∧
      decode_base64 jlsHello ub64 ujlb (PyVal.str "aGVsbG8=")
        = Except.ok (PyVal.bytes [104, 101, 108, 108, 111]) :=
  ⟨(decode_base64_string_fallback jlsHello ub64 ujlb "hello" rfl).1
      B64Err.binasciiError rfl,
   (decode_base64_string_fallback jlsHello ub64 ujlb "////" rfl).2.1
      [255, 255, 255] rfl rfl,
   (decode_base64_string_fallback jlsHello ub64 ujlb "aGVsbG8=" rfl).2.2
      [104, 101, 108, 108, 111] rfl rfl⟩

/-- C5: `decode_base64` round-trips. Encoding a structured value `v` as
base64-wrapped JSON (per the stdlib contract: the base64 text is itself not
valid JSON, base64-decoding recovers the serialized bytes, and JSON-loading
those bytes recovers `v`) decodes back to `v`; and a string that is valid
JSON decodes to the parsed structure. -/
theorem decode_base64_roundtrip (jls : String → Except JsonErr PyVal)
    (b64 : String → Except B64Err (List Nat)) (jlb : List Nat → JsonBytesRes)
    (v w : PyVal) (bs : List Nat) (s t : String) :
    (jls s = Except.error JsonErr.jsonDecodeError → b64 s = Except.ok bs →
      jlb bs = JsonBytesRes.ok v →
      decode_base64 jls b64 jlb (PyVal.str s) = Except.ok v) ∧
      (jls t = Except.ok w →
        decode_base64 jls b64 jlb (PyVal.str t) = Except.ok w) := by
  constructor
  · intro h1 h2 h3
    simp [decode_base64, h1, h2, h3]
  · intro h1
    simp [decode_base64, h1]

/-- Witness for C5 at the dict `a ↦ 1`, its JSON document and the base64
encoding of that document. -/
theorem decode_base64_roundtrip_witness :
    decode_base64 wjls wb64 wjlb (PyVal.str "eyJhIjogMX0=")
        = Except.ok (PyVal.dict [("a", PyVal.int 1)]) ∧
      decode_base64 wjls wb64 wjlb (PyVal.str "\x7b\"a\": 1\x7d")
        = Except.ok (PyVal.dict [("a", PyVal.int 1)]) :=
  ⟨(decode_base64_roundtrip wjls wb64 wjlb (PyVal.dict [("a", PyVal.int 1)])
      PyVal.null [123, 34, 97, 34, 58, 32, 49, 125] "eyJhIjogMX0=" "").1
      rfl rfl rfl,
   (decode_base64_roundtrip wjls wb64 wjlb PyVal.null
      (PyVal.dict [("a", PyVal.int 1)]) [] "" "\x7b\"a\": 1\x7d").2 rfl⟩

/-- C6 counterexample: an explicit empty keys list with one message has
mismatched lengths (`0 ≠ 1`) yet raises no validation error — the falsy
`[]` takes the generated-keys branch and the request is sent. -/
theorem produce_empty_list_mismatch_no_error :
    (produce pst0 [PyVal.null] (some []) none none ["u1"] dumps0
        (Except.ok ())).1 = Except.ok ["u1"] ∧
      List.length ([] : List String) ≠ List.length [PyVal.null] :=
  ⟨rfl, by decide⟩

/-- C6 (amended): for every batch where a non-empty explicit keys list is
supplied with `len(keys) != len(messages)`, `produce` raises the
`ValueError` and issues no HTTP request, leaving the producer state
unchanged; an empty keys list instead falls into the generated-keys
branch. -/
theorem produce_key_count_mismatch (st : ProducerState)
    (messages : List PyVal) (k : String) (ks : List String)
    (key_schema value_schema : Option String) (freshKeys : List String)
    (dumpsBytes : PyVal → List Nat) (transport : Except HttpErr Unit)
    (hlen : (k :: ks).length ≠ messages.length) :
    produce st messages (some (k :: ks)) key_schema value_schema freshKeys
      dumpsBytes transport = (Except.error ProduceErr.valueError, st, []) := by
  have hlen1 : ¬(ks.length + 1 = messages.length) := by simpa using hlen
  simp [produce, manage_keys, hlen1]

/-- Witness for the amended C6 at a concrete two-key, one-message batch. -/
theorem produce_key_count_mismatch_witness :
    produce pst0 [PyVal.null] (some ["k1", "k2"]) none none [] dumps0
        (Except.ok ()) = (Except.error ProduceErr.valueError, pst0, []) :=
  produce_key_count_mismatch pst0 [PyVal.null] "k1" ["k2"] none none []
    dumps0 (Except.ok ()) (by decide)

/-- C7: whenever the serialized UTF-8 body is longer than the configured
`max_data_bytes` (whose construction default is 67,108,864 bytes),
`produce` raises the size error and issues no HTTP request. -/
theorem produce_size_exceeded_before_request (st : ProducerState)
    (messages : List PyVal) (keys : Option (List String))
    (key_schema value_schema : Option String) (freshKeys ks : List String)
    (dumpsBytes : PyVal → List Nat) (transport : Except HttpErr Unit)
    (hk : manage_keys messages.length keys freshKeys = Except.ok ks)
    (hsize : st.max_data_bytes <
      (dumpsBytes (produceBody ks messages key_schema value_schema)).length) :
    produce st messages keys key_schema value_schema freshKeys dumpsBytes
        transport = (Except.error ProduceErr.sizeError, st, []) ∧
      producer_data_max_size_default = 67108864 := by
  refine ⟨?_, rfl⟩
  simp only [produce, hk]
  rw [if_pos hsize]

/-- Witness for C7 with a zero maximum and a two-byte body. -/
theorem produce_size_exceeded_before_request_witness :
    produce pstTiny [PyVal.null] none none none ["u1"] dumps0 (Except.ok ())
        = (Except.error ProduceErr.sizeError, pstTiny, []) ∧
      producer_data_max_size_default = 67108864 :=
  produce_size_exceeded_before_request pstTiny [PyVal.null] none none none
    ["u1"] ["u1"] dumps0 (Except.ok ()) rfl (by decide)

/-- C8: a second `create` on a consumer whose `created` flag is set issues
no HTTP request and returns the state unchanged — any state a successful
`create` produced behaves this way, so two `create` calls equal one — and a
successful `delete` resets `created` to false, leaving other fields
untouched. -/
theorem create_idempotent_delete_resets (st : ConsumerState)
    (t t2 td : Except HttpErr Unit) :
    (st.created = true → create st t = (Except.ok st, [])) ∧
      (∀ st1, (create st t).1 = Except.ok st1 →
        create st1 t2 = (Except.ok st1, [])) ∧
      ∀ st2, (delete st td).1 = Except.ok st2 →
        st2 = { st with created := false } := by
  refine ⟨?_, ?_, ?_⟩
  · intro h
    simp [create, h]
  · intro st1 h
    by_cases hc : st.created
    · simp only [create, if_pos hc, Except.ok.injEq] at h
      subst h
      simp [create, hc]
    · cases t with
      | error e => simp [create, hc] at h
      | ok u =>
        simp only [create, if_neg hc, Except.ok.injEq] at h
        subst h
        simp [create]
  · intro st2 h
    cases td with
    | error e => simp [delete] at h
    | ok u =>
      simp only [delete, Except.ok.injEq] at h
      exact h.symm

/-- Witness for C8 on a concrete created consumer state. -/
theorem create_idempotent_delete_resets_witness :
    create cst1 (Except.ok ()) = (Except.ok cst1, []) ∧
      ∃ st2, (delete cst1 (Except.ok ())).1 = Except.ok st2 ∧
        st2 = { cst1 with created := false } :=
  ⟨(create_idempotent_delete_resets cst1 (Except.ok ()) (Except.ok ())
      (Except.ok ())).1 rfl,
   { cst1 with created := false }, rfl,
   (create_idempotent_delete_resets cst1 (Except.ok ()) (Except.ok ())
      (Except.ok ())).2.2 { cst1 with created := false } rfl⟩

/-- C9: a non-empty message list with `keys=[]` does not raise the
key-count `ValueError` despite the length mismatch: the falsy empty list
behaves exactly as `keys=None`, so one generated key per message is used. -/
theorem produce_empty_keys_treated_as_none (st : ProducerState)
    (messages : List PyVal) (key_schema value_schema : Option String)
    (freshKeys : List String) (dumpsBytes : PyVal → List Nat)
    (transport : Except HttpErr Unit) (_hm : messages ≠ [])
    (_hf : freshKeys.length = messages.length) :
    produce st messages (some []) key_schema value_schema freshKeys dumpsBytes
        transport
      = produce st messages none key_schema value_schema freshKeys dumpsBytes
          transport ∧
      (produce st messages (some []) key_schema value_schema freshKeys
          dumpsBytes transport).1 ≠ Except.error ProduceErr.valueError ∧
      manage_keys messages.length (some []) freshKeys
        = Except.ok freshKeys := by
  refine ⟨rfl, ?_, rfl⟩
  simp only [produce, manage_keys]
  split
  · simp
  · cases transport <;> simp

/-- Witness for C9 at a concrete one-message batch. -/
theorem produce_empty_keys_treated_as_none_witness :
    produce pst0 [PyVal.null] (some []) none none ["u1"] dumps0
          (Except.ok ())
        = produce pst0 [PyVal.null] none none none ["u1"] dumps0
            (Except.ok ()) ∧
      (produce pst0 [PyVal.null] (some []) none none ["u1"] dumps0
          (Except.ok ())).1 ≠ Except.error ProduceErr.valueError ∧
      manage_keys [PyVal.null].length (some []) ["u1"] = Except.ok ["u1"] :=
  produce_empty_keys_treated_as_none pst0 [PyVal.null] none none ["u1"]
    dumps0 (Except.ok ()) (List.cons_ne_nil PyVal.null []) rfl

end KafkaRest
